import Mathlib

/-!
Verification development for a personal expense-tracker web application.

The application records expenses, category budgets and savings goals and
derives dashboard metrics from in-memory collections fetched from a remote
gateway.  We embed the pure computational content of the view components:

* calendar dates and the JavaScript `Date` mutators used at budget creation
  (`setDate`, `setMonth`, both of which normalise out-of-range fields),
* the aggregation functions `calculateMonthlySpending`,
  `getExpensesByCategory` and the two `getBudgetProgress` variants
  (budgets view: budget window `[start_date, end_date]`; dashboard:
  current calendar month),
* the expense list filter (`filteredExpenses`), the savings-pace
  recommendation (`getRecommendedSavings`) and the goal card display logic,
* the state transitions performed by the data-loading, delete and
  goal-progress handlers, with the gateway response modelled as a value
  that either carries rows or reports an error (the client library reports
  failures in the returned value; `data` is null exactly on failure).

Monetary amounts are modelled as rationals; dates at calendar-day
granularity with "today" an explicit parameter.
-/

/-! ## Calendar dates -/

/-- Leap-year rule of the proleptic Gregorian calendar. -/
def isLeapYear (y : Int) : Bool :=
  y % 4 == 0 && (y % 100 != 0 || y % 400 == 0)

/-- Number of days in month `m` (0-based, JavaScript style: January = 0)
of year `y`. -/
def daysInMonth (y : Int) (m : Nat) : Nat :=
  if m == 1 then (if isLeapYear y then 29 else 28)
  else if m == 3 || m == 5 || m == 8 || m == 10 then 30
  else 31

/-- A calendar date: year, 0-based month (JavaScript convention) and
1-based day of month. -/
structure Ymd where
  year : Int
  month : Nat
  day : Nat
deriving DecidableEq, Repr

/-- A date is valid when the month index is in range and the day exists in
that month. -/
def validYmd (d : Ymd) : Prop :=
  d.month < 12 ∧ 1 ≤ d.day ∧ d.day ≤ daysInMonth d.year d.month

instance (d : Ymd) : Decidable (validYmd d) := by
  unfold validYmd; infer_instance

/-- The day after `d` (carries over month and year boundaries). -/
def nextDay (d : Ymd) : Ymd :=
  if d.day < daysInMonth d.year d.month then ⟨d.year, d.month, d.day + 1⟩
  else if d.month < 11 then ⟨d.year, d.month + 1, 1⟩
  else ⟨d.year + 1, 0, 1⟩

/-- `d` advanced by `n` days. -/
def addDays (d : Ymd) : Nat → Ymd
  | 0 => d
  | n + 1 => addDays (nextDay d) n

/-- Chronological comparison of dates, as JavaScript compares `Date`
objects (by timestamp, hence lexicographically on year, month, day at this
granularity). -/
def dateLe (a b : Ymd) : Bool :=
  a.year < b.year ||
    (a.year == b.year &&
      (a.month < b.month || (a.month == b.month && a.day ≤ b.day)))

/-- `getMonth() === currentMonth && getFullYear() === currentYear`:
`d` lies in the same calendar month and year as `today`. -/
def sameMonth (today d : Ymd) : Bool :=
  d.month == today.month && d.year == today.year

/-- Serial day number of a date (days since 1970-01-01, Gregorian),
used to model the day-difference computation of the date library. -/
def toDayNumber (d : Ymd) : Int :=
  let m1 : Int := d.month + 1
  let y : Int := d.year - (if m1 ≤ 2 then 1 else 0)
  let era : Int := (if 0 ≤ y then y else y - 399) / 400
  let yoe : Int := y - era * 400
  let mp : Int := (m1 + 9) % 12
  let doy : Int := (153 * mp + 2) / 5 + d.day - 1
  let doe : Int := yoe * 365 + yoe / 4 - yoe / 100 + doy
  era * 146097 + doe - 719468

/-- `differenceInDays(a, b)` of the date library, at calendar-day
granularity: signed number of days from `b` to `a`. -/
def dateDiffDays (a b : Ymd) : Int :=
  toDayNumber a - toDayNumber b

/-- JavaScript `date.setDate(n)` for `n ≥ 1`: the day-of-month field is
set to `n` and out-of-range values overflow into the following months. -/
def jsSetDate (dt : Ymd) (n : Nat) : Ymd :=
  addDays ⟨dt.year, dt.month, 1⟩ (n - 1)

/-- JavaScript `date.setMonth(m)` for `m ≥ 0`: the month field is set to
`m` (overflowing into later years), keeping the day-of-month, and a
day-of-month absent from the target month overflows into the following
month. -/
def jsSetMonth (dt : Ymd) (m : Nat) : Ymd :=
  addDays ⟨dt.year + (m / 12 : Nat), m % 12, 1⟩ (dt.day - 1)

/-- Budget renewal cadence. -/
inductive Period where
  | weekly
  | monthly
deriving DecidableEq, Repr

/-- End-date computation of the budget creation form (`handleSubmit` in
`BudgetForm`): weekly budgets via `endDate.setDate(startDate.getDate() + 7)`,
monthly budgets via `endDate.setMonth(startDate.getMonth() + 1)`. -/
def budgetEndDate (startDate : Ymd) : Period → Ymd
  | .weekly => jsSetDate startDate (startDate.day + 7)
  | .monthly => jsSetMonth startDate (startDate.month + 1)

/-- Addition of one calendar month in the conventional (clamping) sense,
following the specification's words: same day of the next month, clamped
to that month's last day when the day does not exist there.  Stated for
comparison with `budgetEndDate`. -/
def calendarAddMonth (dt : Ymd) : Ymd :=
  let y : Int := dt.year + ((dt.month + 1) / 12 : Nat)
  let m : Nat := (dt.month + 1) % 12
  ⟨y, m, min dt.day (daysInMonth y m)⟩

/-! ## Record model -/

/-- A spending category (presentation fields included because the
aggregations read them). -/
structure Category where
  id : String
  name : String
  color : String
deriving DecidableEq, Repr

/-- An expense record, optionally expanded with its related category
(the gateway's join-like expansion; `none` when unresolved). -/
structure Expense where
  id : String
  category_id : String
  amount : ℚ
  description : String
  notes : Option String
  date : Ymd
  category : Option Category
deriving DecidableEq, Repr

/-- A budget record. -/
structure Budget where
  id : String
  category_id : String
  amount : ℚ
  period : Period
  start_date : Ymd
  end_date : Ymd
  category : Option Category
deriving DecidableEq, Repr

/-- A savings goal record. -/
structure SavingsGoal where
  id : String
  title : String
  target_amount : ℚ
  current_amount : ℚ
  target_date : Ymd
deriving DecidableEq, Repr

/-- Sum of the amounts of a list of expenses. -/
def sumAmounts (l : List Expense) : ℚ :=
  (l.map Expense.amount).sum

/-! ## Expense list filter (`ExpensesList`) -/

/-- Characters of a string, lower-cased (models `toLowerCase` on the
strings occurring here). -/
def lowerChars (s : String) : List Char :=
  s.toList.map Char.toLower

/-- `isPrefixList a b`: `a` is an initial segment of `b`. -/
def isPrefixList : List Char → List Char → Bool
  | [], _ => true
  | _ :: _, [] => false
  | a :: as, b :: bs => a == b && isPrefixList as bs

/-- `hasSub needle hay`: `needle` occurs contiguously inside `hay`
(the semantics of JavaScript `String.prototype.includes`). -/
def hasSub (needle : List Char) : List Char → Bool
  | [] => needle.isEmpty
  | c :: t => isPrefixList needle (c :: t) || hasSub needle t

/-- Search predicate of the expense list:
`description.toLowerCase().includes(term) || notes?.toLowerCase().includes(term)`
(the optional chaining makes absent notes contribute a falsy value). -/
def matchesSearch (term : String) (e : Expense) : Bool :=
  hasSub (lowerChars term) (lowerChars e.description) ||
    (match e.notes with
     | some n => hasSub (lowerChars term) (lowerChars n)
     | none => false)

/-- Category predicate of the expense list:
`!selectedCategory || expense.category_id === selectedCategory`
(the empty string is falsy and matches everything). -/
def matchesCategory (selectedCategory : String) (e : Expense) : Bool :=
  selectedCategory == "" || e.category_id == selectedCategory

/-- `filteredExpenses` of `ExpensesList`: both predicates must hold. -/
def filteredExpenses (expenses : List Expense)
    (searchTerm selectedCategory : String) : List Expense :=
  expenses.filter fun e => matchesSearch searchTerm e && matchesCategory selectedCategory e

/-! ## Budget progress (both variants) -/

/-- Match predicate of the budgets-view `getBudgetProgress`: category
equality and expense date within `[start_date, end_date]` inclusive. -/
def budgetWindowMatch (b : Budget) (e : Expense) : Bool :=
  e.category_id == b.category_id &&
    dateLe b.start_date e.date && dateLe e.date b.end_date

/-- Result record of the budgets-view `getBudgetProgress`. -/
structure Progress where
  spent : ℚ
  remaining : ℚ
  percentage : ℚ
  isOverBudget : Bool
deriving DecidableEq, Repr

/-- `getBudgetProgress` of `BudgetsList`: sums matching expenses, derives
the raw percentage, clamps the displayed percentage at 100 and keeps the
over-budget flag from the unclamped value. -/
def getBudgetProgress (b : Budget) (expenses : List Expense) : Progress :=
  let spent : ℚ :=
    (expenses.filter (budgetWindowMatch b)).foldl (fun s e => s + e.amount) 0
  let percentage : ℚ := spent / b.amount * 100
  { spent := spent
    remaining := max 0 (b.amount - spent)
    percentage := min 100 percentage
    isOverBudget := decide (100 < percentage) }

/-- Match predicate of the dashboard `getBudgetProgress`: category
equality and expense date in the current calendar month and year. -/
def dashBudgetMatch (today : Ymd) (b : Budget) (e : Expense) : Bool :=
  e.category_id == b.category_id && sameMonth today e.date

/-- Result record of the dashboard `getBudgetProgress`. -/
structure DashProgress where
  category : String
  budget : ℚ
  spent : ℚ
  remaining : ℚ
  percentage : ℚ
  isOverBudget : Bool
deriving DecidableEq, Repr

/-- JavaScript `x || dflt` on an optional string field: the default is
used when the field is absent or the empty string. -/
def jsStrOr (s : Option String) (dflt : String) : String :=
  match s with
  | some v => if v == "" then dflt else v
  | none => dflt

/-- Body of the map inside the dashboard `getBudgetProgress`, for one
budget. -/
def dashBudgetProgressOne (today : Ymd) (b : Budget)
    (expenses : List Expense) : DashProgress :=
  let spent : ℚ :=
    (expenses.filter (dashBudgetMatch today b)).foldl (fun s e => s + e.amount) 0
  let percentage : ℚ := spent / b.amount * 100
  { category := jsStrOr (b.category.map Category.name) "Unknown"
    budget := b.amount
    spent := spent
    remaining := max 0 (b.amount - spent)
    percentage := min 100 percentage
    isOverBudget := decide (100 < percentage) }

/-- `getBudgetProgress` of `Dashboard`: maps the per-budget computation
over the budgets collection. -/
def getBudgetProgressDash (today : Ymd) (budgets : List Budget)
    (expenses : List Expense) : List DashProgress :=
  budgets.map fun b => dashBudgetProgressOne today b expenses

/-! ## Dashboard aggregations -/

/-- `calculateMonthlySpending` of `Dashboard`: sum of the amounts of the
expenses dated in the current calendar month and year. -/
def calculateMonthlySpending (today : Ymd) (expenses : List Expense) : ℚ :=
  (expenses.filter (fun e => sameMonth today e.date)).foldl
    (fun s e => s + e.amount) 0

/-- One slice of the category-spend distribution. -/
structure CatSlice where
  name : String
  value : ℚ
  color : String
deriving DecidableEq, Repr

/-- Accumulate one amount under a category name: the first encounter of a
name appends a fresh slice (fixing the colour), later encounters add to
the existing slice (models the keyed-object accumulator). -/
def bumpCategory : List CatSlice → String → String → ℚ → List CatSlice
  | [], name, color, amt => [⟨name, amt, color⟩]
  | s :: rest, name, color, amt =>
    if s.name == name then { s with value := s.value + amt } :: rest
    else s :: bumpCategory rest name color amt

/-- `getExpensesByCategory` of `Dashboard`: groups the (unfiltered)
expense collection by resolved category name, falling back to the label
"Other" and a default gray when no category is resolved. -/
def getExpensesByCategory (expenses : List Expense) : List CatSlice :=
  expenses.foldl
    (fun acc e =>
      bumpCategory acc (jsStrOr (e.category.map Category.name) "Other")
        (jsStrOr (e.category.map Category.color) "#6B7280") e.amount)
    []

/-- Sum of the values of the category slices. -/
def sumSlices (l : List CatSlice) : ℚ :=
  (l.map CatSlice.value).sum

/-! ## Dashboard expense load (order by date descending, limit 10) -/

/-- Date-descending ordering used by the dashboard expense query. -/
def dateDescRel (a b : Expense) : Prop :=
  dateLe b.date a.date = true

instance : DecidableRel dateDescRel := fun a b => by
  unfold dateDescRel; infer_instance

/-- The dashboard expense query: the full collection ordered by date
descending, truncated to the first 10 rows (`.order('date', descending)`
followed by `.limit(10)`). -/
def loadDashboardExpenses (all : List Expense) : List Expense :=
  (List.insertionSort dateDescRel all).take 10

/-! ## Savings goals -/

/-- The three recommended saving paces. -/
structure Paces where
  daily : ℚ
  weekly : ℚ
  monthly : ℚ
deriving DecidableEq, Repr

/-- `getRecommendedSavings` of `GoalsList`: all-zero paces when no days
remain, otherwise the remaining amount spread over the remaining days,
each pace floored at 0. -/
def getRecommendedSavings (today : Ymd) (g : SavingsGoal) : Paces :=
  let remaining : ℚ := g.target_amount - g.current_amount
  let daysLeft : Int := dateDiffDays g.target_date today
  if daysLeft ≤ 0 then ⟨0, 0, 0⟩
  else
    let daily : ℚ := remaining / (daysLeft : ℚ)
    let weekly : ℚ := daily * 7
    let monthly : ℚ := daily * 30
    ⟨max 0 daily, max 0 weekly, max 0 monthly⟩

/-- What the goal card shows in its status area. -/
inductive GoalDisplay where
  | completed
  | recommend (p : Paces)
  | overdue (days : Nat)
deriving DecidableEq, Repr

/-- Status area of the goal card in `GoalsList`: a completed goal
(progress at or above 100 %) shows the completed banner; otherwise the
card shows the recommended paces when days remain and the overdue notice
(with the absolute day count) when they do not. -/
def goalDisplay (today : Ymd) (g : SavingsGoal) : GoalDisplay :=
  let progress : ℚ := g.current_amount / g.target_amount * 100
  if 100 ≤ progress then .completed
  else if 0 < dateDiffDays g.target_date today then
    .recommend (getRecommendedSavings today g)
  else .overdue (dateDiffDays g.target_date today).natAbs

/-! ## Gateway responses and load/mutation state transitions -/

/-- A gateway response: either the selected rows or a failure.  The
client library reports failures in the returned value (the `data` field
is null exactly when `error` is set); it does not raise. -/
inductive Resp (α : Type) where
  | ok (rows : List α)
  | fail (msg : String)
deriving DecidableEq, Repr

/-- The `data` field of a response (`none` on failure). -/
def respRows {α : Type} : Resp α → Option (List α)
  | .ok rows => some rows
  | .fail _ => none

/-- `loadBudgets` of `BudgetsList`: the returned error is checked and
thrown, the catch block only logs, so a failure leaves the previous
collection in place. -/
def loadBudgetsStep (prev : List Budget) (r : Resp Budget) : List Budget :=
  match r with
  | .ok rows => rows
  | .fail _ => prev

/-- `loadExpenses` of `ExpensesList` (error checked and thrown, catch
logs only). -/
def loadExpensesListStep (prev : List Expense) (r : Resp Expense) : List Expense :=
  match r with
  | .ok rows => rows
  | .fail _ => prev

/-- `loadGoals` of `GoalsList` (error checked and thrown, catch logs
only). -/
def loadGoalsStep (prev : List SavingsGoal) (r : Resp SavingsGoal) :
    List SavingsGoal :=
  match r with
  | .ok rows => rows
  | .fail _ => prev

/-- `loadExpenses` of `BudgetsList`: the returned error is never
inspected; the state is set to `data || []`, so a failure installs the
empty collection. -/
def loadBudgetsViewExpensesStep (_prev : List Expense) (r : Resp Expense) :
    List Expense :=
  (respRows r).getD []

/-- The four collections held by the dashboard. -/
structure DashState where
  categories : List Category
  expenses : List Expense
  budgets : List Budget
  goals : List SavingsGoal
deriving DecidableEq, Repr

/-- `loadDashboardData` of `Dashboard`: none of the four returned errors
is inspected; every collection is set to `data || []`, so a failed fetch
installs the empty collection for that field. -/
def loadDashboardStep (_prev : DashState) (rc : Resp Category)
    (re : Resp Expense) (rb : Resp Budget) (rg : Resp SavingsGoal) :
    DashState :=
  { categories := (respRows rc).getD []
    expenses := (respRows re).getD []
    budgets := (respRows rb).getD []
    goals := (respRows rg).getD [] }

/-- `handleDelete` of `ExpensesList`: on success the collection is
replaced by its filter dropping the deleted id; on failure the catch only
logs and the collection is unchanged. -/
def handleDeleteExpense (prev : List Expense) (id : String)
    (r : Resp Expense) : List Expense :=
  match r with
  | .ok _ => prev.filter fun e => e.id != id
  | .fail _ => prev

/-- `handleDelete` of `BudgetsList` (same shape). -/
def handleDeleteBudget (prev : List Budget) (id : String)
    (r : Resp Budget) : List Budget :=
  match r with
  | .ok _ => prev.filter fun b => b.id != id
  | .fail _ => prev

/-! ## Goal mutation model -/

/-- Client-visible goal store: the goal collection plus the set of ids the
server has ever assigned (server ids are fresh uuids, so an id is never
reused; the `usedIds` component models that freshness). -/
structure GoalsState where
  goals : List SavingsGoal
  usedIds : List String
deriving DecidableEq, Repr

/-- The serialized user actions this design performs on goals. -/
inductive GoalAction where
  | create (g : SavingsGoal)
  | addProgress (id : String) (amount : ℚ)
  | delete (id : String)
deriving DecidableEq, Repr

/-- First goal with the given id. -/
def findGoal (id : String) (l : List SavingsGoal) : Option SavingsGoal :=
  l.find? fun g => g.id == id

/-- One serialized action.  `create` inserts with `current_amount = 0`
(`GoalForm` always writes 0) under a fresh server id; `addProgress` is
guarded by the `amount > 0` check of the input handler and performs the
client-computed full replace `current_amount := current_amount + amount`;
`delete` removes the record. -/
def applyGoalAction (s : GoalsState) : GoalAction → GoalsState
  | .create g =>
    if s.usedIds.contains g.id then s
    else ⟨s.goals ++ [{ g with current_amount := 0 }], s.usedIds ++ [g.id]⟩
  | .addProgress id amt =>
    if 0 < amt then
      ⟨s.goals.map fun g =>
          if g.id == id then { g with current_amount := g.current_amount + amt }
          else g,
        s.usedIds⟩
    else s
  | .delete id => ⟨s.goals.filter fun g => g.id != id, s.usedIds⟩

/-- A sequence of serialized actions. -/
def applyGoalActions (s : GoalsState) (acts : List GoalAction) : GoalsState :=
  acts.foldl applyGoalAction s

/-- Every stored goal's id has been assigned by the server. -/
def WfGoals (s : GoalsState) : Prop :=
  ∀ g ∈ s.goals, g.id ∈ s.usedIds

instance (s : GoalsState) : Decidable (WfGoals s) := by
  unfold WfGoals; infer_instance

/-! ## Helper lemmas -/

set_option maxRecDepth 4000

theorem foldl_add_amount (l : List Expense) (a : ℚ) :
    l.foldl (fun s e => s + e.amount) a = a + sumAmounts l := by
  induction l generalizing a with
  | nil => simp [sumAmounts]
  | cons e t ih =>
    simp only [List.foldl_cons, ih, sumAmounts, List.map_cons, List.sum_cons]
    ring

theorem dateLe_iff (a b : Ymd) :
    dateLe a b = true ↔
      (a.year < b.year ∨ (a.year = b.year ∧
        (a.month < b.month ∨ (a.month = b.month ∧ a.day ≤ b.day)))) := by
  unfold dateLe
  simp [Bool.or_eq_true, Bool.and_eq_true, decide_eq_true_eq, beq_iff_eq]

theorem addDays_succ (d : Ymd) (n : Nat) : addDays d (n + 1) = addDays (nextDay d) n := rfl

theorem addDays_add (d : Ymd) (a b : Nat) :
    addDays d (a + b) = addDays (addDays d a) b := by
  induction a generalizing d with
  | zero => rw [Nat.zero_add]; rfl
  | succ n ih =>
    have h : n + 1 + b = (n + b) + 1 := by omega
    rw [h, addDays_succ, addDays_succ, ih]

theorem nextDay_inMonth (y : Int) (m : Nat) (j : Nat) (h : j < daysInMonth y m) :
    nextDay ⟨y, m, j⟩ = ⟨y, m, j + 1⟩ := by
  simp [nextDay, h]

theorem addDays_inMonth (y : Int) (m : Nat) :
    ∀ (k j : Nat), 1 ≤ j → j + k ≤ daysInMonth y m →
      addDays ⟨y, m, j⟩ k = ⟨y, m, j + k⟩
  | 0, j, _, _ => rfl
  | k + 1, j, hj, hk => by
    rw [addDays_succ, nextDay_inMonth y m j (by omega),
      addDays_inMonth y m k (j + 1) (by omega) (by omega)]
    have h2 : j + 1 + k = j + (k + 1) := by omega
    rw [h2]

theorem isPrefixList_iff (n : List Char) :
    ∀ h : List Char, isPrefixList n h = true ↔ ∃ t, h = n ++ t := by
  induction n with
  | nil =>
    intro h
    exact ⟨fun _ => ⟨h, rfl⟩, fun _ => rfl⟩
  | cons a as ih =>
    intro h
    cases h with
    | nil =>
      simp [isPrefixList]
    | cons b bs =>
      simp only [isPrefixList, Bool.and_eq_true, beq_iff_eq, ih bs]
      constructor
      · rintro ⟨rfl, t, rfl⟩
        exact ⟨t, rfl⟩
      · rintro ⟨t, ht⟩
        injection ht with h1 h2
        exact ⟨h1.symm, t, h2⟩

theorem hasSub_iff (n : List Char) :
    ∀ h : List Char, hasSub n h = true ↔ ∃ pre post, h = pre ++ n ++ post := by
  intro h
  induction h with
  | nil =>
    simp only [hasSub, List.isEmpty_iff]
    constructor
    · intro hn
      exact ⟨[], [], by simp [hn]⟩
    · rintro ⟨pre, post, hp⟩
      obtain ⟨h1, h2⟩ := List.append_eq_nil.mp hp.symm
      obtain ⟨h3, h4⟩ := List.append_eq_nil.mp h1
      exact h4
  | cons c t ih =>
    simp only [hasSub, Bool.or_eq_true, isPrefixList_iff, ih]
    constructor
    · rintro (⟨tl, htl⟩ | ⟨pre, post, rfl⟩)
      · exact ⟨[], tl, by simp [htl]⟩
      · exact ⟨c :: pre, post, by simp⟩
    · rintro ⟨pre, post, hp⟩
      cases pre with
      | nil =>
        left
        exact ⟨post, by simpa using hp⟩
      | cons x xs =>
        right
        injection hp with h1 h2
        exact ⟨xs, post, h2⟩

theorem sumSlices_bump (acc : List CatSlice) (n c : String) (a : ℚ) :
    sumSlices (bumpCategory acc n c a) = sumSlices acc + a := by
  induction acc with
  | nil => simp [bumpCategory, sumSlices]
  | cons s rest ih =>
    cases h : s.name == n with
    | true =>
      simp only [bumpCategory, h, if_true, sumSlices, List.map_cons, List.sum_cons]
      ring
    | false =>
      simp only [bumpCategory, h, Bool.false_eq_true, if_false, sumSlices,
        List.map_cons, List.sum_cons] at ih ⊢
      rw [ih]
      ring

theorem sumSlices_groupFold (es : List Expense) :
    ∀ acc : List CatSlice,
      sumSlices (es.foldl (fun acc e =>
        bumpCategory acc (jsStrOr (e.category.map Category.name) "Other")
          (jsStrOr (e.category.map Category.color) "#6B7280") e.amount) acc) =
      sumSlices acc + sumAmounts es := by
  induction es with
  | nil => intro acc; simp [sumAmounts]
  | cons e t ih =>
    intro acc
    simp only [List.foldl_cons]
    rw [ih, sumSlices_bump]
    simp only [sumAmounts, List.map_cons, List.sum_cons]
    ring

theorem sumSlices_getExpensesByCategory (es : List Expense) :
    sumSlices (getExpensesByCategory es) = sumAmounts es := by
  unfold getExpensesByCategory
  rw [sumSlices_groupFold]
  simp [sumSlices]

/-! ## Claim C3: budget end-date computation -/

/-- C3 counterexample: for the month-end start date 2025-01-31 the monthly
branch of the creation form computes 2025-03-03 (JavaScript `setMonth`
overflow), which is not the start date plus one calendar month
(2025-02-28), so the end date is not "start date plus exactly one calendar
month for every possible start date including month-end start dates". -/
theorem budgetEndDate_monthEnd_cex :
    budgetEndDate ⟨2025, 0, 31⟩ .monthly = ⟨2025, 2, 3⟩ ∧
    calendarAddMonth ⟨2025, 0, 31⟩ = ⟨2025, 1, 28⟩ ∧
    budgetEndDate ⟨2025, 0, 31⟩ .monthly ≠ calendarAddMonth ⟨2025, 0, 31⟩ := by
  decide

/-- C3 (amended): at creation the end date is computed once from the start
date and the period; weekly budgets always get start date plus exactly
7 days, and monthly budgets get the same day of the next month — which
agrees with adding one calendar month whenever that day exists in the
following month, while a month-end day that does not exist there overflows
past the end of that month (JavaScript `setMonth` normalisation). -/
theorem budgetEndDate_rule (start : Ymd) (h : validYmd start) :
    budgetEndDate start .weekly = addDays start 7 ∧
    (start.day ≤ daysInMonth (start.year + ((start.month + 1) / 12 : Nat))
        ((start.month + 1) % 12) →
      budgetEndDate start .monthly = calendarAddMonth start) := by
  obtain ⟨y, m, d⟩ := start
  obtain ⟨hm, hd1, hd2⟩ := h
  dsimp only at hm hd1 hd2
  constructor
  · show jsSetDate ⟨y, m, d⟩ (d + 7) = addDays ⟨y, m, d⟩ 7
    unfold jsSetDate
    have h1 : d + 7 - 1 = (d - 1) + 7 := by omega
    rw [h1, addDays_add, addDays_inMonth y m (d - 1) 1 (by omega) (by omega)]
    have h2 : 1 + (d - 1) = d := by omega
    rw [h2]
  · intro hle
    show jsSetMonth ⟨y, m, d⟩ (m + 1) = calendarAddMonth ⟨y, m, d⟩
    unfold jsSetMonth calendarAddMonth
    dsimp only at hle ⊢
    rw [addDays_inMonth _ _ (d - 1) 1 (by omega) (by omega)]
    have h2 : 1 + (d - 1) = d := by omega
    have h3 : min d (daysInMonth (y + (((m + 1) / 12 : Nat) : Int)) ((m + 1) % 12)) = d :=
      Nat.min_eq_left hle
    rw [h2, h3]

/-- Witness for `budgetEndDate_rule` at the concrete start date
2025-01-15. -/
theorem budgetEndDate_rule_witness :
    validYmd ⟨2025, 0, 15⟩ ∧
    budgetEndDate ⟨2025, 0, 15⟩ .weekly = addDays ⟨2025, 0, 15⟩ 7 ∧
    budgetEndDate ⟨2025, 0, 15⟩ .monthly = calendarAddMonth ⟨2025, 0, 15⟩ :=
  ⟨by decide,
   (budgetEndDate_rule ⟨2025, 0, 15⟩ (by decide)).1,
   (budgetEndDate_rule ⟨2025, 0, 15⟩ (by decide)).2 (by decide)⟩

/-! ## Claim C1: budget progress fields -/

theorem ratio_gt_100_iff (amount s : ℚ) (h : 0 < amount) :
    (decide (100 < s / amount * 100) = true) ↔ amount < s := by
  rw [decide_eq_true_eq, mul_comm, lt_mul_iff_one_lt_right (by norm_num : (0:ℚ) < 100),
    one_lt_div h]

/-- C1: with a positive budget amount, both `getBudgetProgress` variants
compute `spent` as the sum of the matching expenses' amounts,
`percentage` as spent/amount × 100 clamped above at 100, `remaining` as
max(0, amount − spent), and `isOverBudget` from the unclamped ratio, so
that it is true exactly when spent exceeds the amount — even when the
displayed percentage reads 100. -/
theorem budgetProgress_overBudget_unclamped (b : Budget) (es : List Expense)
    (today : Ymd) (h : 0 < b.amount) :
    ((getBudgetProgress b es).spent = sumAmounts (es.filter (budgetWindowMatch b)) ∧
      (getBudgetProgress b es).percentage =
        min 100 ((getBudgetProgress b es).spent / b.amount * 100) ∧
      (getBudgetProgress b es).remaining =
        max 0 (b.amount - (getBudgetProgress b es).spent) ∧
      ((getBudgetProgress b es).isOverBudget = true ↔
        b.amount < (getBudgetProgress b es).spent)) ∧
    ((dashBudgetProgressOne today b es).spent =
        sumAmounts (es.filter (dashBudgetMatch today b)) ∧
      (dashBudgetProgressOne today b es).percentage =
        min 100 ((dashBudgetProgressOne today b es).spent / b.amount * 100) ∧
      (dashBudgetProgressOne today b es).remaining =
        max 0 (b.amount - (dashBudgetProgressOne today b es).spent) ∧
      ((dashBudgetProgressOne today b es).isOverBudget = true ↔
        b.amount < (dashBudgetProgressOne today b es).spent)) := by
  unfold getBudgetProgress dashBudgetProgressOne
  dsimp only
  simp only [foldl_add_amount, zero_add]
  exact ⟨⟨trivial, trivial, trivial, ratio_gt_100_iff b.amount _ h⟩,
    ⟨trivial, trivial, trivial, ratio_gt_100_iff b.amount _ h⟩⟩

/-- Witness for `budgetProgress_overBudget_unclamped`: a weekly budget of
100 for category c1 over 2025-01-01..08, one matching expense of 120. -/
theorem budgetProgress_overBudget_unclamped_witness :
    (0:ℚ) <
      (⟨"b1", "c1", 100, .weekly, ⟨2025, 0, 1⟩, ⟨2025, 0, 8⟩, none⟩ : Budget).amount ∧
    ((getBudgetProgress ⟨"b1", "c1", 100, .weekly, ⟨2025, 0, 1⟩, ⟨2025, 0, 8⟩, none⟩
        [⟨"e1", "c1", 120, "Groceries", none, ⟨2025, 0, 5⟩, none⟩]).isOverBudget = true ↔
      (⟨"b1", "c1", 100, .weekly, ⟨2025, 0, 1⟩, ⟨2025, 0, 8⟩, none⟩ : Budget).amount <
        (getBudgetProgress ⟨"b1", "c1", 100, .weekly, ⟨2025, 0, 1⟩, ⟨2025, 0, 8⟩, none⟩
          [⟨"e1", "c1", 120, "Groceries", none, ⟨2025, 0, 5⟩, none⟩]).spent) :=
  ⟨by norm_num,
   (budgetProgress_overBudget_unclamped
      ⟨"b1", "c1", 100, .weekly, ⟨2025, 0, 1⟩, ⟨2025, 0, 8⟩, none⟩
      [⟨"e1", "c1", 120, "Groceries", none, ⟨2025, 0, 5⟩, none⟩]
      ⟨2025, 0, 15⟩ (by norm_num)).1.2.2.2⟩

/-! ## Claim C2: two reference-window policies -/

/-- C2: the budgets view counts exactly the expenses whose category
matches the budget's and whose date lies in `[start_date, end_date]`
inclusive (chronological order), the dashboard variant counts exactly the
expenses whose category matches and whose date is in the current calendar
month and year, and the two policies are not interchangeable: on a budget
windowed over January 2025 with a matching January expense, evaluated in
February, the budgets view counts 50 while the dashboard variant counts
0. -/
theorem referenceWindow_two_policies (b : Budget) (es : List Expense)
    (today : Ymd) (e : Expense) :
    (e ∈ es.filter (budgetWindowMatch b) ↔
      e ∈ es ∧ e.category_id = b.category_id ∧
        (b.start_date.year < e.date.year ∨ (b.start_date.year = e.date.year ∧
          (b.start_date.month < e.date.month ∨
            (b.start_date.month = e.date.month ∧ b.start_date.day ≤ e.date.day)))) ∧
        (e.date.year < b.end_date.year ∨ (e.date.year = b.end_date.year ∧
          (e.date.month < b.end_date.month ∨
            (e.date.month = b.end_date.month ∧ e.date.day ≤ b.end_date.day))))) ∧
    (e ∈ es.filter (dashBudgetMatch today b) ↔
      e ∈ es ∧ e.category_id = b.category_id ∧
        e.date.month = today.month ∧ e.date.year = today.year) ∧
    (getBudgetProgress ⟨"b1", "c1", 100, .weekly, ⟨2025, 0, 1⟩, ⟨2025, 0, 8⟩, none⟩
        [⟨"e1", "c1", 50, "Bus", none, ⟨2025, 0, 5⟩, none⟩]).spent ≠
      (dashBudgetProgressOne ⟨2025, 1, 3⟩
        ⟨"b1", "c1", 100, .weekly, ⟨2025, 0, 1⟩, ⟨2025, 0, 8⟩, none⟩
        [⟨"e1", "c1", 50, "Bus", none, ⟨2025, 0, 5⟩, none⟩]).spent := by
  refine ⟨?_, ?_, ?_⟩
  · rw [List.mem_filter]
    unfold budgetWindowMatch
    simp [Bool.and_eq_true, beq_iff_eq, dateLe_iff, and_assoc]
  · rw [List.mem_filter]
    unfold dashBudgetMatch sameMonth
    simp [Bool.and_eq_true, beq_iff_eq, and_assoc]
  · norm_num [getBudgetProgress, dashBudgetProgressOne, budgetWindowMatch,
      dashBudgetMatch, sameMonth, dateLe, List.filter]
    simp +decide

/-! ## Claim C4: aggregation inputs and the dashboard limit -/

theorem monthlySpend_eq_sum (today : Ymd) (l : List Expense) :
    calculateMonthlySpending today l =
      sumAmounts (l.filter fun e => sameMonth today e.date) := by
  unfold calculateMonthlySpending
  rw [foldl_add_amount, zero_add]

theorem sumAmounts_perm {l₁ l₂ : List Expense} (h : l₁.Perm l₂) :
    sumAmounts l₁ = sumAmounts l₂ :=
  (h.map Expense.amount).sum_eq

theorem sumAmounts_all_one (l : List Expense) (h : ∀ e ∈ l, e.amount = 1) :
    sumAmounts l = l.length := by
  induction l with
  | nil => simp [sumAmounts]
  | cons e t ih =>
    have ht := ih fun x hx => h x (by simp [hx])
    simp only [sumAmounts, List.map_cons, List.sum_cons, List.length_cons] at ht ⊢
    rw [h e (by simp), ht]
    push_cast
    ring

/-- C4 counterexample: the dashboard's expense query truncates to the 10
most recent rows (`.limit(10)`), and the dashboard aggregations are
computed over that truncated list.  With 11 current-month expenses of
amount 1 each, the dashboard's monthly total is 10 while the full
collection's monthly total is 11, so the aggregation input is a truncated
prefix, not the entire collection. -/
theorem dashboard_truncates_aggregation_cex :
    calculateMonthlySpending ⟨2025, 5, 15⟩
        (loadDashboardExpenses ((List.range 11).map fun k =>
          ⟨"e", "c1", 1, "Item", none, ⟨2025, 5, k + 1⟩, none⟩)) = 10 ∧
    calculateMonthlySpending ⟨2025, 5, 15⟩
        ((List.range 11).map fun k =>
          ⟨"e", "c1", 1, "Item", none, ⟨2025, 5, k + 1⟩, none⟩) = 11 ∧
    (10 : ℚ) ≠ 11 := by
  have hprop : ∀ e ∈ (List.range 11).map fun k =>
      (⟨"e", "c1", 1, "Item", none, ⟨2025, 5, k + 1⟩, none⟩ : Expense),
      sameMonth ⟨2025, 5, 15⟩ e.date = true ∧ e.amount = 1 := by
    intro e he
    simp only [List.mem_map, List.mem_range] at he
    obtain ⟨k, -, rfl⟩ := he
    exact ⟨rfl, rfl⟩
  have hsub : ∀ e ∈ loadDashboardExpenses ((List.range 11).map fun k =>
      (⟨"e", "c1", 1, "Item", none, ⟨2025, 5, k + 1⟩, none⟩ : Expense)),
      e ∈ (List.range 11).map fun k =>
        (⟨"e", "c1", 1, "Item", none, ⟨2025, 5, k + 1⟩, none⟩ : Expense) := by
    intro e he
    exact (List.perm_insertionSort dateDescRel _).subset
      (List.take_subset _ _ he)
  have hspend : ∀ l : List Expense,
      (∀ e ∈ l, sameMonth ⟨2025, 5, 15⟩ e.date = true ∧ e.amount = 1) →
      calculateMonthlySpending ⟨2025, 5, 15⟩ l = l.length := by
    intro l hl
    rw [monthlySpend_eq_sum,
      List.filter_eq_self.mpr fun e he => (hl e he).1,
      sumAmounts_all_one l fun e he => (hl e he).2]
  have hlen : (loadDashboardExpenses ((List.range 11).map fun k =>
      (⟨"e", "c1", 1, "Item", none, ⟨2025, 5, k + 1⟩, none⟩ : Expense))).length = 10 := by
    unfold loadDashboardExpenses
    rw [List.length_take, List.length_insertionSort]
    simp
  refine ⟨?_, ?_, by norm_num⟩
  · rw [hspend _ fun e he => hprop e (hsub e he), hlen]
    norm_num
  · rw [hspend _ hprop]
    simp

/-- C4 (amended): the budgets-view expense load keeps the entire fetched
collection, but the dashboard's expense input is truncated to at most the
10 most recent rows; only when the user has at most 10 expenses is the
dashboard input a permutation of the full collection, and then the
dashboard's monthly total and category distribution total agree with the
full-collection values. -/
theorem dashboard_load_truncation (all : List Expense) (today : Ymd) :
    (loadDashboardExpenses all).length ≤ 10 ∧
    (∀ prev r rows, r = Resp.ok rows → loadBudgetsViewExpensesStep prev r = rows) ∧
    (all.length ≤ 10 → (loadDashboardExpenses all).Perm all) ∧
    (all.length ≤ 10 →
      calculateMonthlySpending today (loadDashboardExpenses all) =
        calculateMonthlySpending today all) ∧
    (all.length ≤ 10 →
      sumSlices (getExpensesByCategory (loadDashboardExpenses all)) =
        sumSlices (getExpensesByCategory all)) := by
  have hperm : all.length ≤ 10 → (loadDashboardExpenses all).Perm all := by
    intro h
    unfold loadDashboardExpenses
    rw [List.take_of_length_le (by rw [List.length_insertionSort]; exact h)]
    exact List.perm_insertionSort _ _
  refine ⟨List.length_take_le _ _, ?_, hperm, ?_, ?_⟩
  · rintro prev r rows rfl
    rfl
  · intro h
    rw [monthlySpend_eq_sum, monthlySpend_eq_sum]
    exact sumAmounts_perm ((hperm h).filter _)
  · intro h
    rw [sumSlices_getExpensesByCategory, sumSlices_getExpensesByCategory]
    exact sumAmounts_perm (hperm h)

/-- Witness for `dashboard_load_truncation` on a one-element collection. -/
theorem dashboard_load_truncation_witness :
    ([⟨"e1", "c1", 5, "Lunch", none, ⟨2025, 0, 5⟩, none⟩] : List Expense).length ≤ 10 ∧
    calculateMonthlySpending ⟨2025, 0, 15⟩
        (loadDashboardExpenses [⟨"e1", "c1", 5, "Lunch", none, ⟨2025, 0, 5⟩, none⟩]) =
      calculateMonthlySpending ⟨2025, 0, 15⟩
        [⟨"e1", "c1", 5, "Lunch", none, ⟨2025, 0, 5⟩, none⟩] :=
  ⟨by decide,
   (dashboard_load_truncation [⟨"e1", "c1", 5, "Lunch", none, ⟨2025, 0, 5⟩, none⟩]
     ⟨2025, 0, 15⟩).2.2.2.1 (by decide)⟩

/-! ## Claim C5: category totals partition the monthly total -/

/-- C5: when every expense of a non-empty collection is dated in the
current month, the sum of the per-category values of
`getExpensesByCategory` equals `calculateMonthlySpending` of that
collection; moreover `getExpensesByCategory` is not month-filtered (its
value total is always the sum of all amounts), `calculateMonthlySpending`
sums exactly the expenses dated in today's calendar month and year, and it
returns 0 on the empty collection. -/
theorem categoryTotals_partition_monthlySpend (es : List Expense) (today : Ymd)
    (hmonth : ∀ e ∈ es, sameMonth today e.date = true) (hne : es ≠ []) :
    sumSlices (getExpensesByCategory es) = calculateMonthlySpending today es ∧
    (∀ l : List Expense, sumSlices (getExpensesByCategory l) = sumAmounts l) ∧
    (∀ (l : List Expense) (t : Ymd),
      calculateMonthlySpending t l =
        sumAmounts (l.filter fun e => sameMonth t e.date)) ∧
    (∀ t : Ymd, calculateMonthlySpending t [] = 0) := by
  refine ⟨?_, sumSlices_getExpensesByCategory, fun l t => monthlySpend_eq_sum t l, fun t => rfl⟩
  rw [sumSlices_getExpensesByCategory, monthlySpend_eq_sum,
    List.filter_eq_self.mpr hmonth]

/-- Witness for `categoryTotals_partition_monthlySpend`: two January-2025
expenses in distinct categories, evaluated with today in January 2025. -/
theorem categoryTotals_partition_monthlySpend_witness :
    (∀ e ∈ ([⟨"e1", "c1", 50, "Groceries", none, ⟨2025, 0, 5⟩,
        some ⟨"c1", "Food", "#EF4444"⟩⟩,
      ⟨"e2", "c2", 30, "Bus", none, ⟨2025, 0, 7⟩,
        some ⟨"c2", "Transport", "#3B82F6"⟩⟩] : List Expense),
      sameMonth ⟨2025, 0, 15⟩ e.date = true) ∧
    sumSlices (getExpensesByCategory
        [⟨"e1", "c1", 50, "Groceries", none, ⟨2025, 0, 5⟩,
          some ⟨"c1", "Food", "#EF4444"⟩⟩,
         ⟨"e2", "c2", 30, "Bus", none, ⟨2025, 0, 7⟩,
          some ⟨"c2", "Transport", "#3B82F6"⟩⟩]) =
      calculateMonthlySpending ⟨2025, 0, 15⟩
        [⟨"e1", "c1", 50, "Groceries", none, ⟨2025, 0, 5⟩,
          some ⟨"c1", "Food", "#EF4444"⟩⟩,
         ⟨"e2", "c2", 30, "Bus", none, ⟨2025, 0, 7⟩,
          some ⟨"c2", "Transport", "#3B82F6"⟩⟩] :=
  ⟨by decide,
   (categoryTotals_partition_monthlySpend
      [⟨"e1", "c1", 50, "Groceries", none, ⟨2025, 0, 5⟩,
        some ⟨"c1", "Food", "#EF4444"⟩⟩,
       ⟨"e2", "c2", 30, "Bus", none, ⟨2025, 0, 7⟩,
        some ⟨"c2", "Transport", "#3B82F6"⟩⟩]
      ⟨2025, 0, 15⟩ (by decide) (by decide)).1⟩

/-! ## Claim C6: recommended savings pace and the goal card status -/

/-- C6 counterexample: a goal that is both completed (current 150 ≥ target
100) and past its target date (daysLeft = −5) shows the completed banner,
not the overdue notice, so the caller does not report an overdue goal
whenever `daysLeft < 0`. -/
theorem goalDisplay_completed_overrides_overdue_cex :
    dateDiffDays (⟨2025, 5, 10⟩ : Ymd) ⟨2025, 5, 15⟩ = -5 ∧
    goalDisplay ⟨2025, 5, 15⟩ ⟨"g1", "Trip", 100, 150, ⟨2025, 5, 10⟩⟩ =
      .completed ∧
    goalDisplay ⟨2025, 5, 15⟩ ⟨"g1", "Trip", 100, 150, ⟨2025, 5, 10⟩⟩ ≠
      .overdue 5 := by
  refine ⟨by decide, ?_, ?_⟩
  · norm_num [goalDisplay, dateDiffDays, toDayNumber]
  · norm_num [goalDisplay, dateDiffDays, toDayNumber]
    decide

/-- C6 (amended): `getRecommendedSavings` returns all-zero paces when
`daysLeft ≤ 0`; otherwise, with `remaining = target − current` (possibly
negative), it returns daily = remaining/daysLeft, weekly = daily × 7 and
monthly = daily × 30, each floored at 0; the goal card reports an overdue
goal by `abs(daysLeft)` days when `daysLeft < 0` **and the goal is not
completed** (a completed goal shows the completed banner instead); the
example goal (target 1000, current 200, due in 10 days) yields paces
80 / 560 / 2400. -/
theorem recommendedSavings_rule (today : Ymd) (g : SavingsGoal) :
    (dateDiffDays g.target_date today ≤ 0 →
      getRecommendedSavings today g = ⟨0, 0, 0⟩) ∧
    (0 < dateDiffDays g.target_date today →
      getRecommendedSavings today g =
        ⟨max 0 ((g.target_amount - g.current_amount) /
            ((dateDiffDays g.target_date today : Int) : ℚ)),
         max 0 ((g.target_amount - g.current_amount) /
            ((dateDiffDays g.target_date today : Int) : ℚ) * 7),
         max 0 ((g.target_amount - g.current_amount) /
            ((dateDiffDays g.target_date today : Int) : ℚ) * 30)⟩) ∧
    (dateDiffDays g.target_date today < 0 →
      g.current_amount / g.target_amount * 100 < 100 →
      goalDisplay today g = .overdue (dateDiffDays g.target_date today).natAbs) ∧
    getRecommendedSavings ⟨2025, 0, 1⟩ ⟨"g", "Phone", 1000, 200, ⟨2025, 0, 11⟩⟩ =
      ⟨80, 560, 2400⟩ := by
  refine ⟨?_, ?_, ?_, ?_⟩
  · intro h
    unfold getRecommendedSavings
    rw [if_pos h]
  · intro h
    unfold getRecommendedSavings
    rw [if_neg (by omega)]
  · intro hneg hprog
    unfold goalDisplay
    rw [if_neg (by exact not_le.mpr hprog), if_neg (by omega)]
  · norm_num [getRecommendedSavings, dateDiffDays, toDayNumber]

/-- Witness for `recommendedSavings_rule`: a non-completed goal 5 days
past its target date is shown as 5 days overdue, and a goal due today or
earlier gets all-zero paces. -/
theorem recommendedSavings_rule_witness :
    dateDiffDays (⟨2025, 5, 10⟩ : Ymd) ⟨2025, 5, 15⟩ < 0 ∧
    ((50 : ℚ) / 100 * 100 < 100) ∧
    goalDisplay ⟨2025, 5, 15⟩ ⟨"g2", "Bike", 100, 50, ⟨2025, 5, 10⟩⟩ =
      .overdue 5 ∧
    getRecommendedSavings ⟨2025, 5, 15⟩ ⟨"g2", "Bike", 100, 50, ⟨2025, 5, 10⟩⟩ =
      ⟨0, 0, 0⟩ :=
  ⟨by decide, by norm_num,
   (recommendedSavings_rule ⟨2025, 5, 15⟩ ⟨"g2", "Bike", 100, 50, ⟨2025, 5, 10⟩⟩).2.2.1
     (by decide) (by norm_num),
   (recommendedSavings_rule ⟨2025, 5, 15⟩ ⟨"g2", "Bike", 100, 50, ⟨2025, 5, 10⟩⟩).1
     (by decide)⟩

/-! ## Claim C7: expense filter is a conjunction of the two axes -/

/-- C7: `filteredExpenses` keeps exactly the expenses that satisfy BOTH
axes — the lower-cased search term occurs contiguously in the lower-cased
description or in the lower-cased notes (absent notes never match via
notes), AND the category id equals the selected category when one is
given, with the empty selection matching every category; the two axes are
conjoined, never disjoined. -/
theorem filterExpenses_conjunction (es : List Expense)
    (searchTerm selectedCategory : String) (e : Expense) :
    e ∈ filteredExpenses es searchTerm selectedCategory ↔
      e ∈ es ∧
      ((∃ pre post, lowerChars e.description =
          pre ++ lowerChars searchTerm ++ post) ∨
        (∃ n pre post, e.notes = some n ∧
          lowerChars n = pre ++ lowerChars searchTerm ++ post)) ∧
      (selectedCategory = "" ∨ e.category_id = selectedCategory) := by
  unfold filteredExpenses matchesSearch matchesCategory
  rw [List.mem_filter, Bool.and_eq_true, Bool.or_eq_true, Bool.or_eq_true]
  constructor
  · rintro ⟨hm, hsearch, hcat⟩
    refine ⟨hm, ?_, ?_⟩
    · rcases hsearch with hdesc | hnotes
      · exact Or.inl ((hasSub_iff _ _).mp hdesc)
      · cases hn : e.notes with
        | none => rw [hn] at hnotes; exact absurd hnotes (by simp)
        | some n =>
          rw [hn] at hnotes
          obtain ⟨pre, post, hp⟩ := (hasSub_iff _ _).mp hnotes
          exact Or.inr ⟨n, pre, post, rfl, hp⟩
    · rcases hcat with hemp | hc
      · exact Or.inl (by simpa using hemp)
      · exact Or.inr (by simpa using hc)
  · rintro ⟨hm, hsearch, hcat⟩
    refine ⟨hm, ?_, ?_⟩
    · rcases hsearch with ⟨pre, post, hp⟩ | ⟨n, pre, post, hn, hp⟩
      · exact Or.inl ((hasSub_iff _ _).mpr ⟨pre, post, hp⟩)
      · rw [hn]
        exact Or.inr ((hasSub_iff _ _).mpr ⟨pre, post, hp⟩)
    · rcases hcat with rfl | hc
      · exact Or.inl (by simp)
      · exact Or.inr (by simpa using hc)

/-! ## Claim C8: behaviour of the load call sites on gateway failure -/

/-- C8 counterexample: the dashboard's combined load inspects none of the
four returned errors; when the gateway reports failures the collections
are replaced with the empty list, so a dashboard holding one expense does
not keep showing its previous collection after a failed load. -/
theorem dashboardLoad_failure_clears_cex :
    loadDashboardStep
        ⟨[], [⟨"e1", "c1", 5, "Lunch", none, ⟨2025, 0, 5⟩, none⟩], [], []⟩
        (.fail "network") (.fail "network") (.fail "network") (.fail "network") =
      ⟨[], [], [], []⟩ ∧
    loadDashboardStep
        ⟨[], [⟨"e1", "c1", 5, "Lunch", none, ⟨2025, 0, 5⟩, none⟩], [], []⟩
        (.fail "network") (.fail "network") (.fail "network") (.fail "network") ≠
      ⟨[], [⟨"e1", "c1", 5, "Lunch", none, ⟨2025, 0, 5⟩, none⟩], [], []⟩ := by
  refine ⟨rfl, ?_⟩
  intro h
  have := congrArg DashState.expenses h
  simp [loadDashboardStep, respRows] at this

/-- C8 (amended): on a gateway failure no load call site crashes or
retries (each is a single total transition on the response value) and the
failure is only logged, but the call sites split into two behaviours: the
loads that check the returned error and throw into their catch block
(budgets list, expenses list, goals list) leave the previous in-memory
collection unchanged, while the dashboard's combined load and the
budgets-view expense load ignore the returned error and replace their
collections with the empty list. -/
theorem loadFailure_policy (msg : String) :
    (∀ prev : List Budget, loadBudgetsStep prev (.fail msg) = prev) ∧
    (∀ prev : List Expense, loadExpensesListStep prev (.fail msg) = prev) ∧
    (∀ prev : List SavingsGoal, loadGoalsStep prev (.fail msg) = prev) ∧
    (∀ prev : DashState,
      loadDashboardStep prev (.fail msg) (.fail msg) (.fail msg) (.fail msg) =
        ⟨[], [], [], []⟩) ∧
    (∀ prev : List Expense, loadBudgetsViewExpensesStep prev (.fail msg) = []) :=
  ⟨fun _ => rfl, fun _ => rfl, fun _ => rfl, fun _ => rfl, fun _ => rfl⟩

/-! ## Claim C10: successful delete removes the record everywhere -/

/-- C10: after a successful delete of id `x` the view's collection equals
the prior collection with every record of id `x` removed and the others
kept unchanged in order (a sublist of the prior collection), and the
derived filtered expense view no longer contains any record with id `x`;
this holds for the expense list and the budgets list alike. -/
theorem deleteRemoves_everywhere (prevE : List Expense) (prevB : List Budget)
    (x : String) (rowsE : List Expense) (rowsB : List Budget) :
    (∀ e, e ∈ handleDeleteExpense prevE x (.ok rowsE) ↔ e ∈ prevE ∧ e.id ≠ x) ∧
    (handleDeleteExpense prevE x (.ok rowsE)).Sublist prevE ∧
    (∀ term sel e,
      e ∈ filteredExpenses (handleDeleteExpense prevE x (.ok rowsE)) term sel →
        e.id ≠ x) ∧
    (∀ b, b ∈ handleDeleteBudget prevB x (.ok rowsB) ↔ b ∈ prevB ∧ b.id ≠ x) ∧
    (handleDeleteBudget prevB x (.ok rowsB)).Sublist prevB := by
  have hmemE : ∀ e : Expense,
      e ∈ handleDeleteExpense prevE x (.ok rowsE) ↔ e ∈ prevE ∧ e.id ≠ x := by
    intro e
    show e ∈ prevE.filter (fun e => e.id != x) ↔ _
    rw [List.mem_filter]
    simp [bne_iff_ne]
  refine ⟨hmemE, List.filter_sublist _, ?_, ?_, List.filter_sublist _⟩
  · intro term sel e he
    exact ((hmemE e).mp (List.mem_filter.mp he).1).2
  · intro b
    show b ∈ prevB.filter (fun b => b.id != x) ↔ _
    rw [List.mem_filter]
    simp [bne_iff_ne]

/-! ## Claim C9: goal progress is monotonically non-decreasing -/

theorem find?_map_of_pred {α : Type} (f : α → α) (p : α → Bool)
    (hp : ∀ x, p (f x) = p x) :
    ∀ l : List α, (l.map f).find? p = (l.find? p).map f := by
  intro l
  induction l with
  | nil => rfl
  | cons a t ih =>
    cases h : p a with
    | true =>
      rw [List.map_cons, List.find?_cons_of_pos _ (by rw [hp]; exact h),
        List.find?_cons_of_pos _ h]
      rfl
    | false =>
      rw [List.map_cons, List.find?_cons_of_neg _ (by rw [hp]; simp [h]),
        List.find?_cons_of_neg _ (by simp [h]), ih]

theorem bump_preserves_id (i : String) (amt : ℚ) (idq : String) :
    ∀ x : SavingsGoal,
      (((if x.id == i then { x with current_amount := x.current_amount + amt }
          else x).id == idq) : Bool) = (x.id == idq) := by
  intro x
  split <;> rfl

theorem findGoal_map_bump (l : List SavingsGoal) (idq i : String) (amt : ℚ) :
    findGoal idq (l.map fun g =>
      if g.id == i then { g with current_amount := g.current_amount + amt }
      else g) =
    (findGoal idq l).map fun g =>
      if g.id == i then { g with current_amount := g.current_amount + amt }
      else g := by
  unfold findGoal
  exact find?_map_of_pred _ _ (bump_preserves_id i amt idq) l

theorem findGoal_mem_id {l : List SavingsGoal} {idq : String} {g : SavingsGoal}
    (h : findGoal idq l = some g) : g ∈ l ∧ g.id = idq :=
  ⟨List.mem_of_find?_eq_some h, by simpa using List.find?_some h⟩

theorem findGoal_append_left {l₁ : List SavingsGoal} (l₂ : List SavingsGoal)
    {idq : String} {g : SavingsGoal} (h : findGoal idq l₁ = some g) :
    findGoal idq (l₁ ++ l₂) = some g := by
  unfold findGoal at *
  rw [List.find?_append, h]
  rfl

theorem findGoal_filter_ne (l : List SavingsGoal) (idq i : String)
    (h : idq ≠ i) :
    findGoal idq (l.filter fun g => g.id != i) = findGoal idq l := by
  induction l with
  | nil => rfl
  | cons g t ih =>
    unfold findGoal at ih ⊢
    by_cases h1 : (g.id == idq) = true
    · have hgid : g.id = idq := by simpa using h1
      have hne : (g.id != i) = true := by simp [bne_iff_ne, hgid, h]
      rw [List.filter_cons_of_pos (p := fun g => g.id != i) (a := g) hne,
        List.find?_cons_of_pos (p := fun x : SavingsGoal => x.id == idq) _ h1,
        List.find?_cons_of_pos (p := fun x : SavingsGoal => x.id == idq) _ h1]
    · cases h2 : (g.id != i) with
      | true =>
        rw [List.filter_cons_of_pos (p := fun g => g.id != i) (a := g) h2,
          List.find?_cons_of_neg (p := fun x : SavingsGoal => x.id == idq) _ (by simp [h1]),
          List.find?_cons_of_neg (p := fun x : SavingsGoal => x.id == idq) _ (by simp [h1])]
        exact ih
      | false =>
        rw [List.filter_cons_of_neg (p := fun g => g.id != i) (a := g) (by simp [h2]),
          List.find?_cons_of_neg (p := fun x : SavingsGoal => x.id == idq) _ (by simp [h1])]
        exact ih

theorem findGoal_filter_self (l : List SavingsGoal) (idq : String) :
    findGoal idq (l.filter fun g => g.id != idq) = none := by
  unfold findGoal
  rw [List.find?_eq_none]
  intro g hg
  have h2 := (List.mem_filter.mp hg).2
  simp only [bne_iff_ne, ne_eq, decide_eq_true_eq] at h2
  simp [h2]

theorem wf_applyGoalAction {s : GoalsState} (hwf : WfGoals s) (a : GoalAction) :
    WfGoals (applyGoalAction s a) := by
  cases a with
  | create g =>
    simp only [applyGoalAction]
    split
    · exact hwf
    · intro x hx
      rcases List.mem_append.mp hx with hx | hx
      · exact List.mem_append_left _ (hwf x hx)
      · have hx' : x = { g with current_amount := 0 } := by simpa using hx
        exact List.mem_append_right _ (by simp [hx'])
  | addProgress i amt =>
    simp only [applyGoalAction]
    split
    · intro x hx
      obtain ⟨y, hy, rfl⟩ := List.mem_map.mp hx
      have hxid : (if y.id == i
          then { y with current_amount := y.current_amount + amt }
          else y).id = y.id := by
        split <;> rfl
      show _ ∈ s.usedIds
      rw [hxid]
      exact hwf y hy
    · exact hwf
  | delete i =>
    simp only [applyGoalAction]
    intro x hx
    exact hwf x (List.mem_filter.mp hx).1

theorem usedIds_mono {s : GoalsState} (a : GoalAction) {idq : String}
    (h : idq ∈ s.usedIds) : idq ∈ (applyGoalAction s a).usedIds := by
  cases a with
  | create g =>
    simp only [applyGoalAction]
    split
    · exact h
    · exact List.mem_append_left _ h
  | addProgress i amt =>
    simp only [applyGoalAction]
    split
    · exact h
    · exact h
  | delete i => exact h

theorem findGoal_absent_step {s : GoalsState} {idq : String} (a : GoalAction)
    (hused : idq ∈ s.usedIds) (habs : findGoal idq s.goals = none) :
    findGoal idq (applyGoalAction s a).goals = none := by
  cases a with
  | create g =>
    simp only [applyGoalAction]
    split
    · exact habs
    · rename_i hc
      have hne : ¬g.id = idq := by
        intro heq
        exact hc (by rw [heq]; exact List.elem_iff.mpr hused)
      show findGoal idq (s.goals ++ [{ g with current_amount := 0 }]) = none
      unfold findGoal at habs ⊢
      rw [List.find?_append, habs]
      simp [hne]
  | addProgress i amt =>
    simp only [applyGoalAction]
    split
    · show findGoal idq (s.goals.map _) = none
      rw [findGoal_map_bump, habs]
      rfl
    · exact habs
  | delete i =>
    simp only [applyGoalAction]
    show findGoal idq (s.goals.filter _) = none
    unfold findGoal at habs ⊢
    rw [List.find?_eq_none] at habs ⊢
    intro x hx
    exact habs x (List.mem_filter.mp hx).1

theorem findGoal_absent_run {idq : String} (acts : List GoalAction) :
    ∀ s : GoalsState, idq ∈ s.usedIds → findGoal idq s.goals = none →
      findGoal idq (applyGoalActions s acts).goals = none := by
  induction acts with
  | nil => intro s _ h; exact h
  | cons a t ih =>
    intro s hu h
    exact ih (applyGoalAction s a) (usedIds_mono a hu) (findGoal_absent_step a hu h)

theorem step_current_le {s : GoalsState} {idq : String} {g g' : SavingsGoal}
    (a : GoalAction) (hg : findGoal idq s.goals = some g)
    (hg' : findGoal idq (applyGoalAction s a).goals = some g') :
    g.current_amount ≤ g'.current_amount := by
  cases a with
  | create gnew =>
    simp only [applyGoalAction] at hg'
    split at hg'
    · rw [hg] at hg'
      injection hg' with h
      rw [← h]
    · rw [show findGoal idq (s.goals ++ [{ gnew with current_amount := 0 }]) = some g
        from findGoal_append_left _ hg] at hg'
      injection hg' with h
      rw [← h]
  | addProgress i amt =>
    simp only [applyGoalAction] at hg'
    split at hg'
    · rename_i hpos
      rw [findGoal_map_bump, hg] at hg'
      injection hg' with h
      rw [← h]
      dsimp only
      split
      · show g.current_amount ≤ g.current_amount + amt
        linarith
      · exact le_refl _
    · rw [hg] at hg'
      injection hg' with h
      rw [← h]
  | delete i =>
    simp only [applyGoalAction] at hg'
    by_cases hii : idq = i
    · subst hii
      rw [findGoal_filter_self] at hg'
      exact absurd hg' (by simp)
    · rw [findGoal_filter_ne _ _ _ hii, hg] at hg'
      injection hg' with h
      rw [← h]


/-- C9: along every sequence of serialized user actions on a well-formed
goal store, a goal's `current_amount` never decreases: the progress update
fires only for a positive delta and performs the client-computed full
replace `previous + delta`, creation installs fresh-id records with
current amount 0, deletion removes records, and no other operation mutates
a goal — and the current amount may exceed the target amount, as the
concrete run creating a goal with target 100 and adding 150 shows. -/
theorem goalCurrentAmount_monotone :
    (∀ (acts : List GoalAction) (s : GoalsState) (idq : String)
        (g g' : SavingsGoal),
      WfGoals s → findGoal idq s.goals = some g →
      findGoal idq (applyGoalActions s acts).goals = some g' →
      g.current_amount ≤ g'.current_amount) ∧
    (∀ (s : GoalsState) (idq : String) (amt : ℚ), 0 < amt →
      findGoal idq (applyGoalAction s (.addProgress idq amt)).goals =
        (findGoal idq s.goals).map fun g =>
          { g with current_amount := g.current_amount + amt }) ∧
    (findGoal "g1" (applyGoalActions ⟨[], []⟩
        [.create ⟨"g1", "Trip", 100, 7, ⟨2026, 0, 1⟩⟩,
          .addProgress "g1" 150]).goals =
      some ⟨"g1", "Trip", 100, 0 + 150, ⟨2026, 0, 1⟩⟩ ∧
      (100 : ℚ) < 0 + 150) := by
  refine ⟨?_, ?_, rfl, by norm_num⟩
  · intro acts
    induction acts with
    | nil =>
      intro s idq g g' _ hg hg'
      rw [show applyGoalActions s [] = s from rfl, hg] at hg'
      injection hg' with h
      rw [← h]
    | cons a t ih =>
      intro s idq g g' hwf hg hg'
      rw [show applyGoalActions s (a :: t) =
        applyGoalActions (applyGoalAction s a) t from rfl] at hg'
      cases hmid : findGoal idq (applyGoalAction s a).goals with
      | some g₂ =>
        exact le_trans (step_current_le a hg hmid)
          (ih (applyGoalAction s a) idq g₂ g' (wf_applyGoalAction hwf a) hmid hg')
      | none =>
        have hused : idq ∈ (applyGoalAction s a).usedIds := by
          obtain ⟨hmem, hid⟩ := findGoal_mem_id hg
          exact usedIds_mono a (hid ▸ hwf g hmem)
        rw [findGoal_absent_run t (applyGoalAction s a) hused hmid] at hg'
        exact absurd hg' (by simp)
  · intro s idq amt hpos
    simp only [applyGoalAction, if_pos hpos]
    rw [findGoal_map_bump]
    cases hf : findGoal idq s.goals with
    | none => rfl
    | some g =>
      have hgid := (findGoal_mem_id hf).2
      simp [Option.map, hgid]

/-- Witness for `goalCurrentAmount_monotone`: one positive progress update
of 5 on a stored goal with current amount 20 yields a current amount of
20 + 5 ≥ 20. -/
theorem goalCurrentAmount_monotone_witness :
    WfGoals ⟨[⟨"g1", "Trip", 100, 20, ⟨2026, 0, 1⟩⟩], ["g1"]⟩ ∧
    (⟨"g1", "Trip", 100, 20, ⟨2026, 0, 1⟩⟩ : SavingsGoal).current_amount ≤
      (⟨"g1", "Trip", 100, 20 + 5, ⟨2026, 0, 1⟩⟩ : SavingsGoal).current_amount :=
  ⟨by decide,
   goalCurrentAmount_monotone.1 [.addProgress "g1" 5]
     ⟨[⟨"g1", "Trip", 100, 20, ⟨2026, 0, 1⟩⟩], ["g1"]⟩ "g1" _ _
     (by decide) rfl rfl⟩
